import Mathlib

/-!
# Verification of the Corvil extraction pipeline controller

Shallow embedding of `src/corvil_extract.py` and proofs about it.

Modelling conventions:
* Python `str` values are Lean `String`s; where we must reason about the
  character-level operations `",".join`, `str.split(",")` and
  `str.replace('"', "")` we work on `List Char` (the character sequence of a
  Python string) with executable helpers whose semantics match Python exactly
  (in particular `"".split(",") == [""]`).
* File contents are lists of lines (without trailing newline characters);
  the filesystem is an association list from path to file data, where file
  data records whether the bytes on disk are gzip-compressed.
* Fallible operations return `Except PyError`; an uncaught exception inside
  `main` is caught by the `if __name__ == "__main__"` guard, which prints it
  and lets the process end with status 0.  Only `sys.exit(1)` produces a
  non-zero status.
-/

set_option autoImplicit false

namespace CorvilExtract

/-! ## Python character-sequence helpers -/

/-- Python `str.split(sep)` on the character sequence of a string, for a
single-character separator.  Matches Python semantics: splitting the empty
string yields `[[]]` (one empty field). -/
def splitOnChar (sep : Char) : List Char → List (List Char)
  | [] => [[]]
  | c :: cs =>
    if c = sep then [] :: splitOnChar sep cs
    else
      match splitOnChar sep cs with
      | t :: ts => (c :: t) :: ts
      | [] => [[c]]

/-- Python `sep.join(xs)` on character sequences, for a single-character
separator. -/
def joinChar (sep : Char) : List (List Char) → List Char
  | [] => []
  | [x] => x
  | x :: y :: ys => x ++ sep :: joinChar sep (y :: ys)

/-- Python `s.split(sep)` returning `String`s (used by `verify_cols` to split
the header row on a comma). -/
def pySplit (sep : Char) (s : String) : List String :=
  (splitOnChar sep s.data).map String.mk

/-! ## `verify_cols` column comparison (src/corvil_extract.py lines 262-277)

The comparison core of `verify_cols`: first the column counts are compared;
only when they agree does the `while` loop compare position by position,
breaking at the first mismatch (reported with a 1-based position). -/

/-- Outcome of the column comparison in `verify_cols`, recording exactly what
the code logs: a count mismatch (expected count, actual count), or the first
positional mismatch (1-based position, expected name, actual name), or a
pass. -/
inductive ColCheck where
  | countMismatch (expected actual : Nat)
  | posMismatch (position : Nat) (expected got : String)
  | pass
deriving DecidableEq

/-- The `while i < len(verify_field_list)` loop of `verify_cols`: walk the two
lists in lockstep (the guard in `compareCols` ensures equal lengths) and stop
at the first position where `col_list[i] != verify_field_list[i]`, reporting
`i + 1`. -/
def colScan : List String → List String → Nat → ColCheck
  | e :: es, c :: cs, i =>
    if c ≠ e then .posMismatch (i + 1) e c else colScan es cs (i + 1)
  | _, _, _ => .pass

/-- Lines 262-277 of `verify_cols`: count check first, positional scan only on
equal counts. -/
def compareCols (verify_field_list col_list : List String) : ColCheck :=
  if verify_field_list.length ≠ col_list.length then
    .countMismatch verify_field_list.length col_list.length
  else colScan verify_field_list col_list 0

/-! ## Expected column list (src/corvil_extract.py lines 402-412)

`field_list = ",".join(extract_fields)`, then
`temp_field_list = field_list.replace('"', "")`, then
`verify_field_list = corvil_added_fields.copy() + temp_field_list.split(",")`. -/

/-- The expected-column-list construction from `main`, on character sequences:
appended fields, then the comma-split of the comma-join of the extract fields
with all double-quote characters removed. -/
def mkVerifyFieldList (corvil_added_fields extract_fields : List (List Char)) :
    List (List Char) :=
  corvil_added_fields ++
    splitOnChar ',' ((joinChar ',' extract_fields).filter (fun c => c != '"'))

/-! ## Python-level errors and file data -/

/-- The Python exceptions relevant to the modelled paths. -/
inductive PyError where
  | fileNotFoundError
  | unicodeDecodeError
  | nameError
  | commandFailed
deriving DecidableEq

/-- Contents of a file on disk: the list of lines, tagged with whether the
bytes are gzip-compressed (for a `.gz` file the stored lines are the
decompressed content). -/
inductive FileData where
  | plain (lines : List String)
  | gz (lines : List String)
deriving DecidableEq

/-! ## Manifest writing (src/corvil_extract.py lines 301-305 and 645-657) -/

/-- `re.sub(r".gz", ".manifest", file_names)`: replace every leftmost
non-overlapping match of the regex `.gz` (any character followed by `gz`) by
`.manifest`. -/
def gzSub : List Char → List Char
  | _ :: 'g' :: 'z' :: rest => ".manifest".data ++ gzSub rest
  | c :: cs => c :: gzSub cs
  | [] => []

/-- Lines 649-654 of `main`: the manifest filename for a matched artifact —
`.gz` rewritten to `.manifest`, with `.error` appended when
`size < 5000 and testing == "False"`. -/
def manifestFilenameFor (file_names : String) (size : Nat) (testing : String) :
    String :=
  let manifestfile := String.mk (gzSub file_names.data)
  if size < 5000 ∧ testing = "False" then manifestfile ++ ".error"
  else manifestfile

/-- The loop variable of `for i, _ in enumerate(f): pass` after the loop ends:
`none` when the loop body never ran (the name `i` stays unbound). -/
def lastIndex (lines : List String) : Option Nat :=
  lines.foldl (fun acc _ => some (acc.elim 0 (· + 1))) none

/-- `file_lcount` (lines 301-305): count the lines of a gzip file by iterating
it and returning `i + 1`.  When the decompressed content has no lines the
name `i` was never bound and the `return i + 1` raises a name error. -/
def file_lcount (lines : List String) : Except PyError Nat :=
  match lastIndex lines with
  | none => .error .nameError
  | some i => .ok (i + 1)

/-- One iteration of the manifest loop (lines 648-657) for a matched artifact:
compute the (unused) decompressed line count, then the manifest filename and
the pipe-delimited record `mnemonic|filename|size|0`.  An exception from
`file_lcount` propagates. -/
def manifestRecord (mnemonic file_names : String) (content : List String)
    (size : Nat) (testing : String) : Except PyError (String × String) :=
  match file_lcount content with
  | .error e => .error e
  | .ok _ =>
      .ok (manifestFilenameFor file_names size testing,
           mnemonic ++ "|" ++ file_names ++ "|" ++ toString size ++ "|" ++ "0\n")

/-! ## Extract catalog (src/corvil_extract.py lines 177-206) -/

/-- The properties of one extract definition that `get_valid_extracts`
inspects; `none` models a missing key and `some ""` an empty value. -/
structure ExtractProps where
  cne : Option String
  rt_class : Option String
  decoder_extracts : Option String
deriving DecidableEq

/-- One of the three checks in `get_valid_extracts`: the key must be present
and its value non-empty. -/
def fieldOk : Option String → Bool
  | none => false
  | some s => !(s.length == 0)

/-- `entry_complete` after the three `if` blocks of `get_valid_extracts`:
still `True` exactly when all of `cne`, `rt-class` and `decoder_extracts` are
present and non-empty. -/
def entryComplete (p : ExtractProps) : Bool :=
  fieldOk p.cne && fieldOk p.rt_class && fieldOk p.decoder_extracts

/-- A market entry of `corvilConfig["markets"]`; `extracts = none` models a
market without an `"extracts"` key. -/
structure MarketCfg where
  extracts : Option (List (String × ExtractProps))
deriving DecidableEq

/-- Python `dict` lookup on an association list (first matching key). -/
def alookup {β : Type} : List (String × β) → String → Option β
  | [], _ => none
  | (k, v) :: rest, a => if a = k then some v else alookup rest a

/-- `get_valid_extracts`: for every market that has an `"extracts"` key, keep
only the complete extract definitions. -/
def get_valid_extracts (markets : List (String × MarketCfg)) :
    List (String × List (String × ExtractProps)) :=
  markets.filterMap (fun kv =>
    match kv.2.extracts with
    | some exs => some (kv.1, exs.filter (fun e => entryComplete e.2))
    | none => none)

/-- The extract names surfaced by `list_extracts` for a mic: the keys of
`valid_extracts[mic]`. -/
def listAvailable (markets : List (String × MarketCfg)) (mic : String) :
    List String :=
  ((alookup (get_valid_extracts markets) mic).getD []).map Prod.fst

/-- Resolution of an extract name (the membership test at line 373 and the
indexing at lines 397-400 both go through `valid_extracts[mic]`). -/
def resolve (markets : List (String × MarketCfg)) (mic extract_name : String) :
    Option ExtractProps :=
  (alookup (get_valid_extracts markets) mic).bind
    (fun exs => alookup exs extract_name)

/-! ## Filesystem model -/

/-- The output directory namespace: path to file data. -/
abbrev FS := List (String × FileData)

/-- Lookup of a path. -/
def fsGet (fs : FS) (name : String) : Option FileData :=
  alookup fs name

/-- `os.path.isfile`. -/
def fsIsFile (fs : FS) (name : String) : Bool :=
  (fsGet fs name).isSome

/-- Drop every entry for `name`. -/
def fsErase (fs : FS) (name : String) : FS :=
  fs.filter (fun e => e.1 != name)

/-- Write (create or truncate) a file. -/
def fsSet (fs : FS) (name : String) (d : FileData) : FS :=
  (name, d) :: fsErase fs name

/-- `os.remove`: deleting a missing path raises `FileNotFoundError`. -/
def fsRemove (fs : FS) (name : String) : Except PyError FS :=
  if fsIsFile fs name then .ok (fsErase fs name)
  else .error .fileNotFoundError

/-- Python `open(name)` in text mode followed by line iteration: a missing
path raises `FileNotFoundError`; opening gzip-compressed bytes as text fails
on the first read (the gzip magic byte `0x8b` is not valid UTF-8). -/
def pyOpenLines (fs : FS) (name : String) : Except PyError (List String) :=
  match fsGet fs name with
  | some (.plain ls) => .ok ls
  | some (.gz _) => .error .unicodeDecodeError
  | none => .error .fileNotFoundError

/-! ## Flow model of `main`, Linux `extract` path
     (src/corvil_extract.py lines 373-657)

External collaborators (`event_log`, `Market`, `cpm_connect`, credential
lookup, `send_mail`) have no effect on the properties proved here and are not
modelled.  The retrieval tool is a reliable collaborator per its contract:
`run_command` on a retrieval pipeline performs the pipeline's file effect.
The canary and full command outputs are therefore parameters of the model
(`canaryLines`, `fullLines`: the rows the pipeline delivers to its sink). -/

/-- How a run of `main` ends.  A `sysexit` escapes the `except Exception`
guard of the `__main__` block and sets the process status; an uncaught
exception (`exn`) is caught there, printed, and the process ends with
status 0. -/
inductive Term where
  | normal
  | sysexit (code : Nat)
  | exn (e : PyError)
deriving DecidableEq

/-- The `extract` subcommand arguments that drive the modelled path.
`filename` is the resolved output stem (`args.filename` or the default built
from mic, extract name and the window). -/
structure ExtArgs where
  extract_name : String
  filename : String
  compress : Bool
  overwrite : Bool
  console : Bool
  human : Bool
  wildcard : Bool
  no_verify : Bool
deriving DecidableEq

/-- Result of the pre-existing-output check at lines 436-452. -/
inductive CollisionOutcome where
  | exit (code : Nat)
  | proceed (fs : FS)
deriving DecidableEq

/-- The guard of line 436: plain output exists, or compression is requested
and the compressed output exists. -/
def collisionCond (fs : FS) (filename : String) (compress : Bool) : Bool :=
  fsIsFile fs (filename ++ ".csv") ||
    (compress && fsIsFile fs (filename ++ ".csv.gz"))

/-- Lines 436-452: on a collision, either delete the existing artifacts
(each deletion guarded by `os.path.isfile`) when `--overwrite` is set, or
`sys.exit(1)`. -/
def collisionCheck (fs : FS) (filename : String) (compress overwrite : Bool) :
    CollisionOutcome :=
  if collisionCond fs filename compress then
    if overwrite then
      let fs1 :=
        if fsIsFile fs (filename ++ ".csv") then fsErase fs (filename ++ ".csv")
        else fs
      let fs2 :=
        if fsIsFile fs1 (filename ++ ".csv.gz") then
          fsErase fs1 (filename ++ ".csv.gz")
        else fs1
      .proceed fs2
    else .exit 1
  else .proceed fs

/-- `verify_cols` (lines 251-295) as a filesystem step: read the first line of
the verification file, split it on commas, compare against the expected list.
On success the verification file is deleted; on failure it is kept (the email
side effect is not modelled) and `False` is returned. -/
def verify_cols (fs : FS) (verify_header_filename : String)
    (verify_field_list : List String) : Except PyError (Bool × FS) :=
  match pyOpenLines fs verify_header_filename with
  | .error e => .error e
  | .ok ls =>
    let header_row := ls.headD ""
    let col_list := pySplit ',' header_row
    match compareCols verify_field_list col_list with
    | .pass =>
      match fsRemove fs verify_header_filename with
      | .error e => .error e
      | .ok fs2 => .ok (true, fs2)
    | _ => .ok (false, fs)

/-- Lines 589-617, the canary branch: run the canary pipeline (every Linux
variant of `test_file_cmd_suffix` gzips into `test_filename + ".csv.gz"`),
then open `test_filename` itself, keep the line at index 5, write it to the
verification file, run `verify_cols`, and finally
`os.remove(test_filename + ".csv")`.  Returns the termination mode, the
filesystem, and the result of `verify_cols` when it was reached. -/
def canaryPhase (fs : FS) (test_filename verify_test_filename : String)
    (verify_field_list canaryLines : List String) :
    Term × FS × Option Bool :=
  let fs1 := fsSet fs (test_filename ++ ".csv.gz") (.gz canaryLines)
  match pyOpenLines fs1 test_filename with
  | .error e => (.exn e, fs1, none)
  | .ok tl =>
    let first_line := tl.get? 5
    let fs2 := fsSet fs1 verify_test_filename
      (.plain (match first_line with | some l => [l] | none => []))
    match verify_cols fs2 verify_test_filename verify_field_list with
    | .error e => (.exn e, fs2, none)
    | .ok (verified, fs3) =>
      match fsRemove fs3 (test_filename ++ ".csv") with
      | .error e => (.exn e, fs3, some verified)
      | .ok fs4 => (.normal, fs4, some verified)

/-- Lines 621-632: run the full pipeline (console mode has no file sink; with
`--compress` the pipeline itself gzips into `.csv.gz`, otherwise it writes
`.csv`), then the separate `tar` compression step, which archives
`filename.csv` and deletes the original.  When `filename.csv` does not exist
the `tar` stage fails; a failing stage is fatal. -/
def runFullPhase (fs : FS) (a : ExtArgs) (fullLines : List String) :
    Term × FS :=
  if a.console then (.normal, fs)
  else
    let fs1 :=
      if a.compress then fsSet fs (a.filename ++ ".csv.gz") (.gz fullLines)
      else fsSet fs (a.filename ++ ".csv") (.plain fullLines)
    if a.compress then
      match fsGet fs1 (a.filename ++ ".csv") with
      | some (.plain ls) =>
        let fs2 := fsSet fs1 (a.filename ++ ".csv.gz") (.gz ls)
        match fsRemove fs2 (a.filename ++ ".csv") with
        | .ok fs3 => (.normal, fs3)
        | .error e => (.exn e, fs2)
      | _ => (.exn .commandFailed, fs1)
    else (.normal, fs1)

/-- Everything `linuxExtractRun` reports about a run of `main`. -/
structure RunResult where
  term : Term
  fs : FS
  ranCanary : Bool
  ranFull : Bool
  listedOptions : Bool
  verifyResult : Option Bool
deriving DecidableEq

/-- The process exit status: `sys.exit(1)` is not an `Exception` and escapes
the `__main__` guard; every other ending (normal return, or an exception
caught and printed by the guard) leaves status 0. -/
def RunResult.exitCode (r : RunResult) : Nat :=
  match r.term with
  | .sysexit c => c
  | _ => 0

/-- The Linux `extract` path of `main` (lines 373-657): the invalid-name check
(lines 373-376), the collision check (lines 436-452), the canary/verification
branch (lines 589-619, taken when none of `--console`, `--wildcard`,
`--no_verify` is set), then the full run and compression (lines 621-632).
The manifest phase (lines 634-657) only creates `.manifest` files and is
modelled separately by `manifestRecord`. -/
def linuxExtractRun (validNames : List String) (a : ExtArgs)
    (verify_field_list canaryLines fullLines : List String) (fs0 : FS) :
    RunResult :=
  if a.extract_name ∈ validNames then
    match collisionCheck fs0 a.filename a.compress a.overwrite with
    | .exit c =>
      { term := .sysexit c, fs := fs0, ranCanary := false, ranFull := false,
        listedOptions := false, verifyResult := none }
    | .proceed fs1 =>
      let test_filename := a.filename ++ "_test"
      let verify_test_filename := test_filename ++ "_temp_verify.csv"
      if !a.console && !a.wildcard && !a.no_verify then
        match canaryPhase fs1 test_filename verify_test_filename
            verify_field_list canaryLines with
        | (.exn e, fs2, vr) =>
          { term := .exn e, fs := fs2, ranCanary := true, ranFull := false,
            listedOptions := false, verifyResult := vr }
        | (_, fs2, vr) =>
          let tfs := runFullPhase fs2 a fullLines
          { term := tfs.1, fs := tfs.2, ranCanary := true, ranFull := true,
            listedOptions := false, verifyResult := vr }
      else
        let tfs := runFullPhase fs1 a fullLines
        { term := tfs.1, fs := tfs.2, ranCanary := false, ranFull := true,
          listedOptions := false, verifyResult := none }
  else
    { term := .normal, fs := fs0, ranCanary := false, ranFull := false,
      listedOptions := true, verifyResult := none }

/-! ## Lemmas about the column comparison -/

theorem colScan_self (l : List String) (i : Nat) : colScan l l i = .pass := by
  induction l generalizing i with
  | nil => rfl
  | cons x xs ih => simp [colScan, ih]

theorem colScan_first_mismatch (es : List String) :
    ∀ (cs : List String) (i j : Nat), es.length = cs.length → j < es.length →
      (∀ k, k < j → es.getD k "" = cs.getD k "") →
      es.getD j "" ≠ cs.getD j "" →
      colScan es cs i = .posMismatch (i + j + 1) (es.getD j "") (cs.getD j "") := by
  induction es with
  | nil => intro cs i j _ hj; simp at hj
  | cons e es ih =>
    intro cs i j hlen hj hpre hne
    cases cs with
    | nil => simp at hlen
    | cons c cs =>
      cases j with
      | zero =>
        simp only [List.getD_cons_zero] at hne ⊢
        rw [colScan, if_pos (Ne.symm hne)]
      | succ j =>
        have h0 : e = c := by
          have := hpre 0 (Nat.succ_pos j)
          simpa using this
        have harith : i + (j + 1) + 1 = (i + 1) + j + 1 := by omega
        simp only [List.getD_cons_succ] at hne ⊢
        rw [colScan, if_neg (by simp [h0]), harith]
        exact ih cs (i + 1) j (by simpa using hlen) (by simpa using hj)
          (fun k hk => by simpa using hpre (k + 1) (by omega)) hne

/-! ## Lemmas about split and join -/

theorem splitOnChar_no_sep (sep : Char) (x : List Char) (hx : sep ∉ x) :
    splitOnChar sep x = [x] := by
  induction x with
  | nil => rfl
  | cons c cs ih =>
    have hc : ¬(c = sep) := fun h => hx (h ▸ List.mem_cons_self c cs)
    rw [splitOnChar, if_neg hc, ih (fun h => hx (List.mem_cons_of_mem c h))]

theorem splitOnChar_append (sep : Char) (x rest : List Char) (hx : sep ∉ x) :
    splitOnChar sep (x ++ sep :: rest) = x :: splitOnChar sep rest := by
  induction x with
  | nil => simp [splitOnChar]
  | cons c cs ih =>
    have hc : ¬(c = sep) := fun h => hx (h ▸ List.mem_cons_self c cs)
    rw [List.cons_append, splitOnChar, if_neg hc,
      ih (fun h => hx (List.mem_cons_of_mem c h))]

theorem splitOnChar_joinChar (sep : Char) (xs : List (List Char))
    (hne : xs ≠ []) (hsep : ∀ x ∈ xs, sep ∉ x) :
    splitOnChar sep (joinChar sep xs) = xs := by
  induction xs with
  | nil => cases hne rfl
  | cons x xs ih =>
    cases xs with
    | nil =>
      rw [joinChar]
      exact splitOnChar_no_sep sep x (hsep x (List.mem_cons_self x []))
    | cons y ys =>
      rw [joinChar, splitOnChar_append sep x _ (hsep x (List.mem_cons_self x _)),
        ih (by simp) (fun z hz => hsep z (List.mem_cons_of_mem x hz))]

theorem mem_joinChar (sep : Char) (xs : List (List Char)) :
    ∀ c ∈ joinChar sep xs, c = sep ∨ ∃ x ∈ xs, c ∈ x := by
  induction xs with
  | nil => intro c hc; simp [joinChar] at hc
  | cons x xs ih =>
    intro c hc
    cases xs with
    | nil =>
      right
      exact ⟨x, List.mem_cons_self x [], by simpa [joinChar] using hc⟩
    | cons y ys =>
      rw [joinChar] at hc
      rcases List.mem_append.mp hc with h | h
      · right; exact ⟨x, List.mem_cons_self x _, h⟩
      · rcases List.mem_cons.mp h with h | h
        · left; exact h
        · rcases ih c h with h | ⟨z, hz, hcz⟩
          · left; exact h
          · right; exact ⟨z, List.mem_cons_of_mem x hz, hcz⟩

theorem filter_joinChar (xs : List (List Char)) (hq : ∀ x ∈ xs, '"' ∉ x) :
    (joinChar ',' xs).filter (fun c => c != '"') = joinChar ',' xs := by
  apply List.filter_eq_self.mpr
  intro c hc
  rcases mem_joinChar ',' xs c hc with h | ⟨x, hx, hcx⟩
  · subst h; decide
  · have hcq : c ≠ '"' := fun h => hq x hx (h ▸ hcx)
    simpa [bne_iff_ne] using hcq

/-! ## Lemmas about `lastIndex` -/

theorem foldl_lastIndex_some (l : List String) :
    ∀ k : Nat,
      l.foldl (fun acc _ => some (acc.elim 0 (· + 1))) (some k)
        = some (k + l.length) := by
  induction l with
  | nil => intro k; simp
  | cons x xs ih =>
    intro k
    rw [List.foldl_cons]
    show xs.foldl _ (some (k + 1)) = _
    rw [ih (k + 1)]
    simp only [List.length_cons]
    congr 1
    omega

theorem lastIndex_cons (x : String) (xs : List String) :
    lastIndex (x :: xs) = some xs.length := by
  unfold lastIndex
  rw [List.foldl_cons]
  show xs.foldl _ (some 0) = _
  rw [foldl_lastIndex_some xs 0]
  simp

/-! ## Lemmas about the catalog -/

theorem alookup_get_valid_extracts (markets : List (String × MarketCfg))
    (mic : String) (v : MarketCfg) (exs : List (String × ExtractProps))
    (hm : alookup markets mic = some v) (hex : v.extracts = some exs) :
    alookup (get_valid_extracts markets) mic
      = some (exs.filter (fun e => entryComplete e.2)) := by
  induction markets with
  | nil => simp [alookup] at hm
  | cons kv rest ih =>
    obtain ⟨k, w⟩ := kv
    rw [get_valid_extracts, List.filterMap_cons]
    by_cases hk : mic = k
    · subst hk
      rw [alookup, if_pos rfl] at hm
      injection hm with hm
      subst hm
      rw [hex]
      rw [alookup, if_pos rfl]
    · rw [alookup, if_neg hk] at hm
      have htail : alookup (get_valid_extracts rest) mic
          = some (exs.filter (fun e => entryComplete e.2)) := ih hm
      cases hw : w.extracts with
      | none => simpa [get_valid_extracts] using htail
      | some l =>
        simp only
        rw [alookup, if_neg hk]
        simpa [get_valid_extracts] using htail

theorem not_mem_keys_filter (exs : List (String × ExtractProps)) (name : String)
    (hbad : ∀ e ∈ exs, e.1 = name → entryComplete e.2 = false) :
    name ∉ (exs.filter (fun e => entryComplete e.2)).map Prod.fst := by
  intro hmem
  rcases List.mem_map.mp hmem with ⟨e, he, hfst⟩
  have hf := List.mem_filter.mp he
  have hc := hbad e hf.1 hfst
  rw [hc] at hf
  exact Bool.false_ne_true hf.2

theorem alookup_eq_none_of_not_mem_keys {β : Type} (l : List (String × β))
    (name : String) (h : name ∉ l.map Prod.fst) : alookup l name = none := by
  induction l with
  | nil => rfl
  | cons kv rest ih =>
    simp only [List.map_cons, List.mem_cons, not_or] at h
    rw [alookup, if_neg h.1]
    exact ih h.2

/-! ## Lemmas about the filesystem -/

theorem alookup_filter_ne {β : Type} (l : List (String × β)) (m n : String) :
    alookup (l.filter (fun e => e.1 != m)) n
      = if n = m then none else alookup l n := by
  induction l with
  | nil => simp [alookup]
  | cons kv rest ih =>
    obtain ⟨k, d⟩ := kv
    by_cases hkm : k = m
    · rw [List.filter_cons, if_neg (by simp [hkm]), ih]
      by_cases hnm : n = m
      · simp [hnm]
      · have hnk : ¬(n = k) := fun h => hnm (h.trans hkm)
        simp [hnm, alookup, hnk]
    · rw [List.filter_cons, if_pos (by simp [hkm])]
      by_cases hnk : n = k
      · have hnm : ¬(n = m) := fun h => hkm (hnk ▸ h : k = m)
        simp [alookup, hnk, hnm, hkm]
      · rw [alookup, if_neg hnk, ih, alookup, if_neg hnk]

theorem fsGet_erase (fs : FS) (m n : String) :
    fsGet (fsErase fs m) n = if n = m then none else fsGet fs n :=
  alookup_filter_ne fs m n

theorem csv_ne_csv_gz (filename : String) :
    filename ++ ".csv" ≠ filename ++ ".csv.gz" := by
  intro h
  have h2 := congrArg String.length h
  rw [String.length_append, String.length_append] at h2
  have h3 : (".csv" : String).length = 4 := rfl
  have h4 : (".csv.gz" : String).length = 7 := rfl
  rw [h3, h4] at h2
  omega

/-! ## Small filesystem corollaries used by the overwrite policy -/

theorem fsIsFile_erase_self (fs : FS) (n : String) :
    fsIsFile (fsErase fs n) n = false := by
  simp [fsIsFile, fsGet_erase]

theorem fsIsFile_erase_other (fs : FS) (m n : String) (h : ¬(n = m)) :
    fsIsFile (fsErase fs m) n = fsIsFile fs n := by
  simp [fsIsFile, fsGet_erase, h]

/-! ## Claims -/

/-- C1: the claim states that a failed `verify_cols` outcome makes the
controller abort before the full extraction, with a non-zero exit status.
The code calls `verify_cols` without using its return value (line 607) and
then runs the full command unconditionally (line 622); despite the log text
"Script terminated with ERROR - exit code 1", nothing exits.  Concretely, in
a run in which `verify_cols` returns `False`, the full extraction command
still executes and the process ends with status 0. -/
theorem C1_full_run_despite_verify_failure :
    (linuxExtractRun ["e1"] ⟨"e1", "f", false, false, false, false, false, false⟩
        ["ts", "px"] ["x"] ["row"]
        [("f_test", .plain ["m1", "m2", "m3", "m4", "m5", "a,b", "d"]),
         ("f_test.csv", .plain ["j"])]).verifyResult = some false
    ∧ (linuxExtractRun ["e1"] ⟨"e1", "f", false, false, false, false, false, false⟩
        ["ts", "px"] ["x"] ["row"]
        [("f_test", .plain ["m1", "m2", "m3", "m4", "m5", "a,b", "d"]),
         ("f_test.csv", .plain ["j"])]).ranFull = true
    ∧ (linuxExtractRun ["e1"] ⟨"e1", "f", false, false, false, false, false, false⟩
        ["ts", "px"] ["x"] ["row"]
        [("f_test", .plain ["m1", "m2", "m3", "m4", "m5", "a,b", "d"]),
         ("f_test.csv", .plain ["j"])]).exitCode = 0 := by decide

/-- C2 counterexample: for an extract name outside the catalog the run lists
the valid options, but the process ends with exit status 0 (the function
simply returns and the `__main__` guard completes normally), not with the
non-zero status the claim requires. -/
theorem C2_counterexample :
    (linuxExtractRun ["good"] ⟨"bad", "w", false, false, false, false, false, false⟩
        ["a"] ["c"] ["f"] []).listedOptions = true
    ∧ (linuxExtractRun ["good"] ⟨"bad", "w", false, false, false, false, false, false⟩
        ["a"] ["c"] ["f"] []).exitCode = 0 := by decide

/-- C2 (amended): for every invocation of the extract subcommand with an
extract name outside the valid-extracts catalog, the run lists the valid
options and returns without running any external command, and the process
exits cleanly with status 0. -/
theorem C2_invalid_name_lists_and_exits_zero (validNames : List String)
    (a : ExtArgs) (vfl cl fl : List String) (fs0 : FS)
    (h : a.extract_name ∉ validNames) :
    (linuxExtractRun validNames a vfl cl fl fs0).listedOptions = true
    ∧ (linuxExtractRun validNames a vfl cl fl fs0).exitCode = 0
    ∧ (linuxExtractRun validNames a vfl cl fl fs0).ranCanary = false
    ∧ (linuxExtractRun validNames a vfl cl fl fs0).ranFull = false := by
  refine ⟨?_, ?_, ?_, ?_⟩ <;> simp [linuxExtractRun, h, RunResult.exitCode]

/-- Witness for C2 (amended) at a concrete invocation. -/
theorem C2_invalid_name_lists_and_exits_zero_witness :
    (("bad" : String) ∉ (["good"] : List String))
    ∧ ((linuxExtractRun ["good"] ⟨"bad", "w2", false, false, false, false, false, false⟩
          ["a"] ["c"] ["f"] []).listedOptions = true
      ∧ (linuxExtractRun ["good"] ⟨"bad", "w2", false, false, false, false, false, false⟩
          ["a"] ["c"] ["f"] []).exitCode = 0
      ∧ (linuxExtractRun ["good"] ⟨"bad", "w2", false, false, false, false, false, false⟩
          ["a"] ["c"] ["f"] []).ranCanary = false
      ∧ (linuxExtractRun ["good"] ⟨"bad", "w2", false, false, false, false, false, false⟩
          ["a"] ["c"] ["f"] []).ranFull = false) :=
  ⟨by decide,
    C2_invalid_name_lists_and_exits_zero ["good"]
      ⟨"bad", "w2", false, false, false, false, false, false⟩
      ["a"] ["c"] ["f"] [] (by decide)⟩

/-- C3: the column comparison of `verify_cols` checks counts first — differing
lengths give an immediate count-mismatch report carrying both counts and no
positional comparison happens; with equal lengths the lists are compared
position by position, the first mismatching index is reported 1-based, and
the scan stops there; equal lists pass. -/
theorem C3_column_comparison (e c : List String) :
    (e.length ≠ c.length → compareCols e c = .countMismatch e.length c.length)
    ∧ (compareCols e e = .pass)
    ∧ (∀ j, e.length = c.length → j < e.length →
        (∀ k, k < j → e.getD k "" = c.getD k "") →
        e.getD j "" ≠ c.getD j "" →
        compareCols e c = .posMismatch (j + 1) (e.getD j "") (c.getD j "")) := by
  refine ⟨?_, ?_, ?_⟩
  · intro h
    rw [compareCols, if_pos h]
  · rw [compareCols, if_neg (fun h => h rfl)]
    exact colScan_self e 0
  · intro j hlen hj hpre hne
    rw [compareCols, if_neg (fun h => h hlen)]
    have h := colScan_first_mismatch e c 0 j hlen hj hpre hne
    simpa using h

/-- Witness for C3 at the spec's two worked examples. -/
theorem C3_column_comparison_witness :
    ((["a", "b"] : List String).length ≠ (["a", "b", "c"] : List String).length
      ∧ compareCols ["a", "b"] ["a", "b", "c"] = .countMismatch 2 3)
    ∧ ((1 : Nat) < (["a", "b", "c"] : List String).length
      ∧ compareCols ["a", "b", "c"] ["a", "x", "c"] = .posMismatch 2 "b" "x") := by
  constructor
  · exact ⟨by decide, (C3_column_comparison ["a", "b"] ["a", "b", "c"]).1 (by decide)⟩
  · refine ⟨by decide, ?_⟩
    have h := (C3_column_comparison ["a", "b", "c"] ["a", "x", "c"]).2.2 1 rfl
      (by decide)
      (by
        intro k hk
        have hk0 : k = 0 := by omega
        subst hk0
        rfl)
      (by decide)
    exact h

/-- C4: the claim states the 6th decompressed line of a compressed canary
output is used as the header (1st line when uncompressed).  The canary
pipeline writes `test_filename + ".csv.gz"`, but the code then opens
`test_filename` itself as plain text (lines 596-605); the `head -1` variant
exists only in a command string that is never executed.  On the spec's own
example the run raises `FileNotFoundError` before any header is extracted:
verification never happens, the full command never runs, the process exits 0,
and the canary gz file is left on disk. -/
theorem C4_header_extraction_never_happens :
    (linuxExtractRun ["e2"] ⟨"e2", "g", false, false, false, false, false, false⟩
        ["a", "b", "c"]
        ["meta1", "meta2", "meta3", "meta4", "meta5", "a,b,c", "1,2,3"]
        ["r"] []).term = .exn .fileNotFoundError
    ∧ (linuxExtractRun ["e2"] ⟨"e2", "g", false, false, false, false, false, false⟩
        ["a", "b", "c"]
        ["meta1", "meta2", "meta3", "meta4", "meta5", "a,b,c", "1,2,3"]
        ["r"] []).verifyResult = none
    ∧ (linuxExtractRun ["e2"] ⟨"e2", "g", false, false, false, false, false, false⟩
        ["a", "b", "c"]
        ["meta1", "meta2", "meta3", "meta4", "meta5", "a,b,c", "1,2,3"]
        ["r"] []).ranFull = false
    ∧ (linuxExtractRun ["e2"] ⟨"e2", "g", false, false, false, false, false, false⟩
        ["a", "b", "c"]
        ["meta1", "meta2", "meta3", "meta4", "meta5", "a,b,c", "1,2,3"]
        ["r"] []).exitCode = 0
    ∧ fsIsFile
        (linuxExtractRun ["e2"] ⟨"e2", "g", false, false, false, false, false, false⟩
          ["a", "b", "c"]
          ["meta1", "meta2", "meta3", "meta4", "meta5", "a,b,c", "1,2,3"]
          ["r"] []).fs "g_test.csv.gz" = true := by decide

/-- C5 counterexample: for an empty extract-field list, joining on commas and
splitting again manufactures one empty column, so the expected column list is
the appended fields plus an empty string — not the appended fields followed by
the (zero) extract fields as the claim states for every configuration. -/
theorem C5_counterexample :
    mkVerifyFieldList [['t', 's']] [] = [['t', 's'], []]
    ∧ mkVerifyFieldList [['t', 's']] [] ≠ [['t', 's']] := by decide

/-- C5 (amended): whenever the extract-field list is non-empty and no field
contains a comma or a double-quote character, the expected column list equals
the appended fields in configured order followed by the extract fields in
configured order. -/
theorem C5_expected_columns (corvil_added_fields extract_fields : List (List Char))
    (h1 : extract_fields ≠ [])
    (h2 : ∀ f ∈ extract_fields, ',' ∉ f ∧ '"' ∉ f) :
    mkVerifyFieldList corvil_added_fields extract_fields
      = corvil_added_fields ++ extract_fields := by
  unfold mkVerifyFieldList
  rw [filter_joinChar extract_fields (fun x hx => (h2 x hx).2),
    splitOnChar_joinChar ',' extract_fields h1 (fun x hx => (h2 x hx).1)]

/-- Witness for C5 (amended) at the spec's end-to-end example fields. -/
theorem C5_expected_columns_witness :
    ([['p', 'x'], ['q', 't', 'y']] : List (List Char)) ≠ []
    ∧ (∀ f ∈ ([['p', 'x'], ['q', 't', 'y']] : List (List Char)), ',' ∉ f ∧ '"' ∉ f)
    ∧ mkVerifyFieldList [['t', 's']] [['p', 'x'], ['q', 't', 'y']]
        = [['t', 's'], ['p', 'x'], ['q', 't', 'y']] :=
  ⟨by decide, by decide,
    C5_expected_columns [['t', 's']] [['p', 'x'], ['q', 't', 'y']]
      (by decide) (by decide)⟩

/-- C6 counterexample: a 4999-byte artifact with `testing = "no"` — a state
that is not the test-run value, so the claim demands a `.manifest.error`
name — gets a plain `.manifest` name, because the code appends `.error` only
when `testing` is exactly the string "False". -/
theorem C6_counterexample :
    manifestFilenameFor "foo.csv.gz" 4999 "no" = "foo.csv.manifest"
    ∧ manifestFilenameFor "foo.csv.gz" 4999 "no" ≠ "foo.csv.manifest.error" := by
  decide

/-- C6 (amended): the manifest filename carries the extra `.error` suffix
exactly when the artifact size is below 5000 bytes and the `testing` argument
is the literal string "False"; a size of 5000 or more never gets the suffix,
and any `testing` value other than "False" (including the test-run value
"True") never gets the suffix. -/
theorem C6_error_suffix (file_names : String) (size : Nat) (testing : String) :
    (size < 5000 → testing = "False" →
      manifestFilenameFor file_names size testing
        = String.mk (gzSub file_names.data) ++ ".error")
    ∧ (5000 ≤ size →
      manifestFilenameFor file_names size testing
        = String.mk (gzSub file_names.data))
    ∧ (testing ≠ "False" →
      manifestFilenameFor file_names size testing
        = String.mk (gzSub file_names.data)) := by
  refine ⟨?_, ?_, ?_⟩
  · intro hsz ht
    simp [manifestFilenameFor, hsz, ht]
  · intro hsz
    simp [manifestFilenameFor, Nat.not_lt.mpr hsz]
  · intro ht
    simp [manifestFilenameFor, ht]

/-- Witness for C6 (amended) at the spec's threshold examples. -/
theorem C6_error_suffix_witness :
    ((4999 : Nat) < 5000
      ∧ manifestFilenameFor "foo.csv.gz" 4999 "False"
          = String.mk (gzSub ("foo.csv.gz" : String).data) ++ ".error")
    ∧ ((5000 : Nat) ≤ 5000
      ∧ manifestFilenameFor "foo.csv.gz" 5000 "False"
          = String.mk (gzSub ("foo.csv.gz" : String).data))
    ∧ (("True" : String) ≠ "False"
      ∧ manifestFilenameFor "foo.csv.gz" 4999 "True"
          = String.mk (gzSub ("foo.csv.gz" : String).data)) :=
  ⟨⟨by decide, (C6_error_suffix "foo.csv.gz" 4999 "False").1 (by decide) rfl⟩,
   ⟨by decide, (C6_error_suffix "foo.csv.gz" 5000 "False").2.1 (by decide)⟩,
   ⟨by decide, (C6_error_suffix "foo.csv.gz" 4999 "True").2.2 (by decide)⟩⟩

/-- C7: output-collision policy.  When the plain output exists (or compression
is requested and the compressed output exists) and `--overwrite` is absent,
the run ends in `sys.exit(1)` with no external command invoked.  When
`--overwrite` is present on a collision, the check (which precedes every
command in `linuxExtractRun`) proceeds to a state in which neither the plain
nor the compressed artifact exists, each deletion being guarded by an
existence check so a missing file is not an error. -/
theorem C7_overwrite_policy (validNames : List String) (a : ExtArgs)
    (vfl cl fl : List String) (fs0 : FS)
    (hname : a.extract_name ∈ validNames)
    (hcol : collisionCond fs0 a.filename a.compress = true) :
    (a.overwrite = false →
      (linuxExtractRun validNames a vfl cl fl fs0).term = .sysexit 1
      ∧ (linuxExtractRun validNames a vfl cl fl fs0).ranCanary = false
      ∧ (linuxExtractRun validNames a vfl cl fl fs0).ranFull = false)
    ∧ (a.overwrite = true →
      ∃ fs1, collisionCheck fs0 a.filename a.compress a.overwrite = .proceed fs1
        ∧ fsIsFile fs1 (a.filename ++ ".csv") = false
        ∧ fsIsFile fs1 (a.filename ++ ".csv.gz") = false) := by
  constructor
  · intro h0
    have hcc : collisionCheck fs0 a.filename a.compress a.overwrite = .exit 1 := by
      rw [collisionCheck, if_pos hcol, if_neg (by simp [h0])]
    refine ⟨?_, ?_, ?_⟩ <;> simp [linuxExtractRun, hname, hcc]
  · intro h1
    cases hc1 : fsIsFile fs0 (a.filename ++ ".csv") with
    | true =>
      cases hc2 : fsIsFile (fsErase fs0 (a.filename ++ ".csv"))
          (a.filename ++ ".csv.gz") with
      | true =>
        refine ⟨fsErase (fsErase fs0 (a.filename ++ ".csv"))
          (a.filename ++ ".csv.gz"), ?_, ?_, ?_⟩
        · simp [collisionCheck, hcol, h1, hc1, hc2]
        · rw [fsIsFile_erase_other _ _ _ (csv_ne_csv_gz a.filename),
            fsIsFile_erase_self]
        · exact fsIsFile_erase_self _ _
      | false =>
        refine ⟨fsErase fs0 (a.filename ++ ".csv"), ?_, ?_, ?_⟩
        · simp [collisionCheck, hcol, h1, hc1, hc2]
        · exact fsIsFile_erase_self _ _
        · exact hc2
    | false =>
      cases hc2 : fsIsFile fs0 (a.filename ++ ".csv.gz") with
      | true =>
        refine ⟨fsErase fs0 (a.filename ++ ".csv.gz"), ?_, ?_, ?_⟩
        · simp [collisionCheck, hcol, h1, hc1, hc2]
        · rw [fsIsFile_erase_other _ _ _ (csv_ne_csv_gz a.filename)]
          exact hc1
        · exact fsIsFile_erase_self _ _
      | false =>
        refine ⟨fs0, ?_, ?_, ?_⟩
        · simp [collisionCheck, hcol, h1, hc1, hc2]
        · exact hc1
        · exact hc2

/-- Witness for C7 at concrete collisions, one per branch of the policy. -/
theorem C7_overwrite_policy_witness :
    ((linuxExtractRun ["e"] ⟨"e", "foo", false, false, false, false, false, false⟩
        ["a"] ["c"] ["f"] [("foo.csv", .plain ["x"])]).term = .sysexit 1
      ∧ (linuxExtractRun ["e"] ⟨"e", "foo", false, false, false, false, false, false⟩
          ["a"] ["c"] ["f"] [("foo.csv", .plain ["x"])]).ranCanary = false
      ∧ (linuxExtractRun ["e"] ⟨"e", "foo", false, false, false, false, false, false⟩
          ["a"] ["c"] ["f"] [("foo.csv", .plain ["x"])]).ranFull = false)
    ∧ (∃ fs1,
        collisionCheck
          [("bar.csv", FileData.plain ["x"]), ("bar.csv.gz", FileData.gz ["y"])]
          "bar" false true = .proceed fs1
        ∧ fsIsFile fs1 ("bar" ++ ".csv") = false
        ∧ fsIsFile fs1 ("bar" ++ ".csv.gz") = false) := by
  constructor
  · exact (C7_overwrite_policy ["e"]
      ⟨"e", "foo", false, false, false, false, false, false⟩
      ["a"] ["c"] ["f"] [("foo.csv", .plain ["x"])]
      (by decide) (by decide)).1 rfl
  · exact (C7_overwrite_policy ["e"]
      ⟨"e", "bar", false, true, false, false, false, false⟩
      ["a"] ["c"] ["f"]
      [("bar.csv", FileData.plain ["x"]), ("bar.csv.gz", FileData.gz ["y"])]
      (by decide) (by decide)).2 rfl

/-- C8: the claim states the canary's full output file is deleted afterward on
every outcome.  The canary pipeline writes `test_filename + ".csv.gz"` and the
code even computes `test_filename_remove` with that name, but the cleanup at
line 617 removes `test_filename + ".csv"` instead.  In a run in which the
verification path runs to completion and passes, the canary gz artifact is
still on disk at the end. -/
theorem C8_canary_artifact_survives :
    (linuxExtractRun ["e3"] ⟨"e3", "h", false, false, false, false, false, false⟩
        ["a", "b"] ["c1"] ["r"]
        [("h_test", .plain ["m1", "m2", "m3", "m4", "m5", "a,b", "z"]),
         ("h_test.csv", .plain ["j"])]).verifyResult = some true
    ∧ (linuxExtractRun ["e3"] ⟨"e3", "h", false, false, false, false, false, false⟩
        ["a", "b"] ["c1"] ["r"]
        [("h_test", .plain ["m1", "m2", "m3", "m4", "m5", "a,b", "z"]),
         ("h_test.csv", .plain ["j"])]).term = .normal
    ∧ fsIsFile
        (linuxExtractRun ["e3"] ⟨"e3", "h", false, false, false, false, false, false⟩
          ["a", "b"] ["c1"] ["r"]
          [("h_test", .plain ["m1", "m2", "m3", "m4", "m5", "a,b", "z"]),
           ("h_test.csv", .plain ["j"])]).fs "h_test.csv.gz" = true := by decide

/-- C9: an extract definition missing any of the cne key, the rt-class key or
the decoder-extract key, or with any of them empty, is excluded from the
built catalog: it is neither listed among the available extracts nor
resolvable by name. -/
theorem C9_incomplete_definitions_excluded (markets : List (String × MarketCfg))
    (mic extract_name : String) (v : MarketCfg)
    (exs : List (String × ExtractProps))
    (hm : alookup markets mic = some v) (hex : v.extracts = some exs)
    (hbad : ∀ e ∈ exs, e.1 = extract_name → entryComplete e.2 = false) :
    extract_name ∉ listAvailable markets mic
    ∧ resolve markets mic extract_name = none := by
  have hl := alookup_get_valid_extracts markets mic v exs hm hex
  have hkeys := not_mem_keys_filter exs extract_name hbad
  constructor
  · unfold listAvailable
    rw [hl]
    exact hkeys
  · unfold resolve
    rw [hl]
    exact alookup_eq_none_of_not_mem_keys _ _ hkeys

/-- Witness for C9: a definition with an empty cne value is neither listed nor
resolvable. -/
theorem C9_incomplete_definitions_excluded_witness :
    alookup
        [("XNYS",
          (⟨some [("raw", ⟨some "", some "rt1", some "dx"⟩)]⟩ : MarketCfg))]
        "XNYS"
      = some ⟨some [("raw", ⟨some "", some "rt1", some "dx"⟩)]⟩
    ∧ (∀ e ∈ ([("raw", (⟨some "", some "rt1", some "dx"⟩ : ExtractProps))] :
          List (String × ExtractProps)),
        e.1 = "raw" → entryComplete e.2 = false)
    ∧ ("raw" ∉ listAvailable
        [("XNYS", ⟨some [("raw", ⟨some "", some "rt1", some "dx"⟩)]⟩)] "XNYS"
      ∧ resolve
          [("XNYS", ⟨some [("raw", ⟨some "", some "rt1", some "dx"⟩)]⟩)]
          "XNYS" "raw" = none) :=
  ⟨by decide, by decide,
    C9_incomplete_definitions_excluded
      [("XNYS", ⟨some [("raw", ⟨some "", some "rt1", some "dx"⟩)]⟩)]
      "XNYS" "raw" ⟨some [("raw", ⟨some "", some "rt1", some "dx"⟩)]⟩
      [("raw", ⟨some "", some "rt1", some "dx"⟩)]
      (by decide) rfl (by decide)⟩

/-- C10: `file_lcount` returns the decompressed line count for every non-empty
content, but on content with zero lines the loop variable is never bound and
the function raises a name error instead of returning 0, so the manifest-loop
step fails on any empty matching gz artifact. -/
theorem C10_file_lcount_nonempty_only (lines : List String) (mn fn testing : String)
    (size : Nat) :
    (lines = [] →
      file_lcount lines = .error .nameError
      ∧ manifestRecord mn fn lines size testing = .error .nameError)
    ∧ (lines ≠ [] → file_lcount lines = .ok lines.length) := by
  constructor
  · intro h
    subst h
    exact ⟨rfl, rfl⟩
  · intro h
    cases lines with
    | nil => cases h rfl
    | cons x xs =>
      unfold file_lcount
      rw [lastIndex_cons]
      simp

/-- Witness for C10: the empty content fails with the name error, a two-line
content counts two lines. -/
theorem C10_file_lcount_nonempty_only_witness :
    (([] : List String) = []
      ∧ file_lcount [] = .error .nameError
      ∧ manifestRecord "MIC1" "f.csv.gz" [] 4999 "False" = .error .nameError)
    ∧ ((["a", "b"] : List String) ≠ []
      ∧ file_lcount ["a", "b"] = .ok 2) := by
  constructor
  · have h := (C10_file_lcount_nonempty_only [] "MIC1" "f.csv.gz" "False" 4999).1 rfl
    exact ⟨rfl, h.1, h.2⟩
  · have h := (C10_file_lcount_nonempty_only ["a", "b"] "MIC1" "f.csv.gz" "False" 4999).2
      (by decide)
    exact ⟨by decide, h⟩

end CorvilExtract
